import Mathlib

/-!
Shallow embedding of the sutil value-cache (`cache/value/value.go`), the
slog trace-context extraction (`slog/slog` extractContext family) and the
mq payload codec (`generatePayload` / `parsePayload` /
`generateMsgsPayload`), together with theorems settling the frozen claims
about them.

External collaborators (the redis client, the opentracing/jaeger tracer and
the JSON serializer) are modelled as explicit parameters or small concrete
models, following the specification's scoping: their internals are out of
scope, only their contracts matter here.
-/

namespace Sutil

/-- The dynamic (`interface\x7b\x7d`) values the Go code passes around:
JSON-encodable scalars, jaeger trace identifiers, values implementing the
`contextHeader` capability (a key/value projection), mq `Payload` structs
(carrier, JSON text, head), and values the JSON encoder rejects. `vnull`
stands for Go's nil interface value. -/
inductive GoValue where
  | vnull : GoValue
  | vint (n : Int) : GoValue
  | vstr (s : String) : GoValue
  | vtrace (high low : Nat) : GoValue
  | vheader (kv : List (String × GoValue)) : GoValue
  | vpayload (carrier : List (String × String)) (value : String) (head : GoValue) : GoValue
  | vunsupported (desc : String) : GoValue

/-- The dynamic key argument of `Cache.Get` / `Cache.Del`: one constructor
per Go type the `keyToString` switch distinguishes, plus a constructor for
every other dynamic type (the `default` branch). -/
inductive GoKey where
  | str (s : String)
  | i8 (n : Int)
  | i16 (n : Int)
  | i32 (n : Int)
  | i64 (n : Int)
  | u8 (n : Nat)
  | u16 (n : Nat)
  | u32 (n : Nat)
  | u64 (n : Nat)
  | int (n : Int)
  | unsupported (desc : String)
deriving DecidableEq

/-- `Cache.keyToString`: a string key is returned verbatim; each integer
kind is rendered with `fmt.Sprintf("%d", key)`, i.e. unpadded base-10
(with a leading minus sign for negative signed values); every other
dynamic type is rejected with the unsupported-type error. -/
def keyToString : GoKey → Except String String
  | .str t => .ok t
  | .i8 n => .ok (toString n)
  | .i16 n => .ok (toString n)
  | .i32 n => .ok (toString n)
  | .i64 n => .ok (toString n)
  | .u8 n => .ok (toString n)
  | .u16 n => .ok (toString n)
  | .u32 n => .ok (toString n)
  | .u64 n => .ok (toString n)
  | .int n => .ok (toString n)
  | .unsupported _ => .error "key err: unsupported type"

/-- Go's `%v` rendering of a key, used by error-message formatting in
`Cache.Get`. -/
def goKeyFmt : GoKey → String
  | .str s => s
  | .i8 n => toString n
  | .i16 n => toString n
  | .i32 n => toString n
  | .i64 n => toString n
  | .u8 n => toString n
  | .u16 n => toString n
  | .u32 n => toString n
  | .u64 n => toString n
  | .int n => toString n
  | .unsupported d => d

/-- The abstract JSON serializer (`encoding/json`), an external
collaborator: `marshal` may fail (unsupported types), `unmarshal` may fail
(text that is not valid JSON for the target). -/
structure Json where
  marshal : GoValue → Except String String
  unmarshal : String → Except String GoValue

/-- The `Cache` struct: store namespace, key prefix, caller-supplied
loader, TTL (`expire`). The loader is `LoadFunc`: key to value or error;
errors are carried as their `Error()` text. -/
structure GoCache where
  nspace : String
  pfx : String
  load : GoKey → Except String GoValue
  expire : Nat

/-- `NewCache`: path separators in the namespace are replaced with dots. -/
def NewCache (ns pfx : String) (expire : Nat) (load : GoKey → Except String GoValue) : GoCache :=
  { nspace := ns.replace "/" ".", pfx := pfx, load := load, expire := expire }

/-- `Cache.fixKey`: stringify the key, then prepend `pfx ++ "."` when a
non-empty prefix is configured. -/
def fixKey (c : GoCache) (key : GoKey) : Except String String :=
  match keyToString key with
  | .error e => .error e
  | .ok skey =>
    if c.pfx.length > 0 then .ok (c.pfx ++ "." ++ skey) else .ok skey

/-- Modelled from the spec: the redis client's not-found sentinel text
(`redis.RedisNil` lives in the repository's `cache/redis` package, which is
not under src). The store's GET exposes a distinguishable not-found
condition; `Cache.Get` compares error text against this sentinel. -/
def RedisNil : String := "redis: nil"

/-- Modelled from the spec: the observable behaviour of the external redis
client for one cache instance. `hasInstance` is whether
`DefaultInstanceManager.GetInstance` returns a client; `getFault` /
`setFault`, when set, make every GET / SET fail with that error text
(a store access failure other than not-found). -/
structure RedisEnv where
  hasInstance : Bool
  getFault : Option String
  setFault : Option String

/-- Execution state threaded through one or more cache calls: the store's
entries (key, data, absolute expiry instant; later writes shadow earlier
ones), plus instrumentation counters — loader invocations, store reads and
the list of store writes (key, data, TTL) — used to state the claims. -/
structure ExecSt where
  entries : List (String × String × Nat)
  loaderCalls : Nat
  storeReads : Nat
  storeWrites : List (String × String × Nat)

/-- Store lookup at instant `now`: the most recent write to the key wins,
and an entry whose expiry instant has passed behaves as absent. -/
def storeLookup (entries : List (String × String × Nat)) (k : String) (now : Nat) : Option String :=
  match entries.find? (fun e => e.1 == k) with
  | some e => if now < e.2.2 then some e.2.1 else none
  | none => none

/-- Modelled from the spec: the redis client's GET. A fault is returned as
is; otherwise a live entry yields its bytes and a missing or expired key
yields the not-found sentinel. Each call counts one store read. -/
def clientGet (env : RedisEnv) (st : ExecSt) (k : String) (now : Nat) :
    Except String String × ExecSt :=
  let st1 := { st with storeReads := st.storeReads + 1 }
  match env.getFault with
  | some m => (.error m, st1)
  | none =>
    match storeLookup st1.entries k now with
    | some d => (.ok d, st1)
    | none => (.error RedisNil, st1)

/-- Modelled from the spec: the redis client's SET with TTL. On a fault
nothing is stored and the fault text is the call's error; otherwise the
entry is written with absolute expiry `now + ttl` and the write is
recorded. -/
def clientSet (env : RedisEnv) (st : ExecSt) (k d : String) (ttl now : Nat) :
    Option String × ExecSt :=
  match env.setFault with
  | some m => (some m, st)
  | none =>
    (none,
     { st with
        entries := (k, d, now + ttl) :: st.entries,
        storeWrites := st.storeWrites ++ [(k, d, ttl)] })

/-- `Cache.getValueFromCache`: fix the key, resolve the instance, GET the
bytes, JSON-unmarshal them into the output slot. Every failure is returned
verbatim (in particular a raw not-found sentinel from the GET). -/
def getValueFromCache (codec : Json) (env : RedisEnv) (c : GoCache) (key : GoKey)
    (now : Nat) (st : ExecSt) : Except String GoValue × ExecSt :=
  match fixKey c key with
  | .error e => (.error e, st)
  | .ok skey =>
    if env.hasInstance then
      let r := clientGet env st skey now
      match r.1 with
      | .error e => (.error e, r.2)
      | .ok data =>
        match codec.unmarshal data with
        | .error e => (.error e, r.2)
        | .ok v => (.ok v, r.2)
    else (.error ("get instance err, namespace: " ++ c.nspace), st)

/-- `Cache.loadValueToCache`: invoke the loader; on loader error the data
to store is the error's text, on marshal error the marshal error's text,
otherwise the encoded bytes. Then `skey, err := m.fixKey(key)` REASSIGNS
`err` (same scope short variable declaration), so after a successful
`fixKey` the load/marshal error is lost: the function returns the SET's
error (`rerr`), which is nil on a successful write — the trailing
`if err != nil` check in the Go source is dead at that point. This
reassignment is modelled faithfully. -/
def loadValueToCache (codec : Json) (env : RedisEnv) (c : GoCache) (key : GoKey)
    (now : Nat) (st : ExecSt) : Except String Unit × ExecSt :=
  let st1 := { st with loaderCalls := st.loaderCalls + 1 }
  let data : String :=
    match c.load key with
    | .error e => e
    | .ok value =>
      match codec.marshal value with
      | .error e => e
      | .ok d => d
  match fixKey c key with
  | .error e => (.error e, st1)
  | .ok skey =>
    if env.hasInstance then
      match clientSet env st1 skey data c.expire now with
      | (some m, st2) => (.error m, st2)
      | (none, st2) => (.ok (), st2)
    else (.error ("get instance err, namespace: " ++ c.nspace), st1)

/-- `Cache.Get`: read the store; on success return. On an error other than
the not-found sentinel, return it wrapped with the operation name and key.
On not-found, load-and-store, propagating a non-nil result; otherwise
re-read the store and return that second read's outcome verbatim. -/
def CacheGet (codec : Json) (env : RedisEnv) (c : GoCache) (key : GoKey)
    (now : Nat) (st : ExecSt) : Except String GoValue × ExecSt :=
  match getValueFromCache codec env c key now st with
  | (.ok v, st1) => (.ok v, st1)
  | (.error e, st1) =>
    if e ≠ RedisNil then
      (.error ("Cache.Get --> cache key: " ++ goKeyFmt key ++ " err: " ++ e), st1)
    else
      match loadValueToCache codec env c key now st1 with
      | (.error e2, st2) => (.error e2, st2)
      | (.ok _, st2) => getValueFromCache codec env c key now st2

/-- A jaeger-style span context: the two 64-bit halves of the trace
identifier. -/
structure SpanContext where
  high : Nat
  low : Nat
deriving DecidableEq

/-- An opentracing span as this code observes it: operation name, parent
span context (none for a root span), its own span context, and whether its
context is a jaeger `SpanContext` (the type assertion in
`extractTraceID`). -/
structure Span where
  opName : String
  parent : Option SpanContext
  sc : SpanContext
  jaeger : Bool
deriving DecidableEq

/-- The ambient `context.Context` as this code observes it: the active
span, if any, and the value stored under the fixed key `"Head"`
(Go's nil interface is `GoValue.vnull`). -/
structure Context where
  span : Option Span
  head : GoValue

/-- Modelled from the spec: the tracer's Inject over a TextMap carrier —
it writes the span context into the flat text mapping. -/
def tracerInject (sc : SpanContext) : List (String × String) :=
  [("trace-id-high", toString sc.high), ("trace-id-low", toString sc.low)]

/-- First value for a key in a text carrier. -/
def lookupCarrier (carrier : List (String × String)) (k : String) : Option String :=
  match carrier.find? (fun e => e.1 == k) with
  | some e => some e.2
  | none => none

/-- Modelled from the spec: the tracer's Extract over a TextMap carrier —
an empty carrier yields a not-found error, a carrier whose fields do not
parse yields a corrupted error, otherwise the span context is recovered. -/
def tracerExtract (carrier : List (String × String)) : Except String SpanContext :=
  match lookupCarrier carrier "trace-id-high", lookupCarrier carrier "trace-id-low" with
  | some hs, some ls =>
    match hs.toNat?, ls.toNat? with
    | some h, some l => .ok { high := h, low := l }
    | _, _ => .error "opentracing: SpanContext data corrupted"
  | _, _ => .error "opentracing: SpanContext not found in Extract carrier"

/-- Modelled from the spec: the trace identifier the tracer assigns to a
fresh root span in this deterministic tracer model. -/
def rootSc : SpanContext := { high := 0, low := 0 }

/-- `tracer.StartSpan(opName, ext.RPCServerOption(spanCtx))`: a child span
continuing the extracted trace. -/
def startSpanChild (opName : String) (parent : SpanContext) : Span :=
  { opName := opName, parent := some parent, sc := parent, jaeger := true }

/-- `tracer.StartSpan(opName)`: a fresh root span. -/
def startSpanRoot (opName : String) : Span :=
  { opName := opName, parent := none, sc := rootSc, jaeger := true }

/-- The slog context-key for the operation uid field. -/
def contextKeyOpUid : String := "uid"

/-- The slog context-key for the trace identifier field. -/
def contextKeyTraceID : String := "traceID"

/-- `emptyTrace`: the placeholder trace component, a zero jaeger
`TraceID\x7b0, 0\x7d`. -/
def emptyTrace : List (String × GoValue) := [(contextKeyTraceID, .vtrace 0 0)]

/-- `emptyHead`: the placeholder head component, `uid: int64(0)`. -/
def emptyHead : List (String × GoValue) := [(contextKeyOpUid, .vint 0)]

/-- `extractTraceID`: the active span's context must be a jaeger span
context; then its trace identifier is returned under the traceID key,
otherwise the traceID-not-found error. -/
def extractTraceID (ctx : Context) : Except String (List (String × GoValue)) :=
  match ctx.span with
  | some sp =>
    if sp.jaeger then .ok [(contextKeyTraceID, .vtrace sp.sc.high sp.sc.low)]
    else .error "traceID not found"
  | none => .error "traceID not found"

/-- Go map access `kv[k]`: the stored value, or the zero value (nil) when
the key is absent. -/
def lookupKV (kv : List (String × GoValue)) (k : String) : GoValue :=
  match kv.find? (fun e => e.1 == k) with
  | some e => e.2
  | none => .vnull

/-- `extractHead`: the value under `"Head"` must implement the
`contextHeader` projection capability (here: be a `vheader`); with
`fullHead` the whole projection is returned, otherwise only the uid
field (nil when the projection lacks it). Anything else fails with the
head-not-found error. -/
def extractHead (ctx : Context) (fullHead : Bool) : Except String (List (String × GoValue)) :=
  match ctx.head with
  | .vheader kv =>
    if fullHead then .ok kv
    else .ok [(contextKeyOpUid, lookupKV kv contextKeyOpUid)]
  | _ => .error "valid context head not found"

/-- `extractContext`: nil context yields the empty result; otherwise the
trace component (placeholder on failure) followed by the head component
(placeholder on failure). -/
def extractContext : Option Context → Bool → List (List (String × GoValue))
  | none, _ => []
  | some ctx, fullHead =>
    let t := match extractTraceID ctx with
      | .ok ckv => ckv
      | .error _ => emptyTrace
    let h := match extractHead ctx fullHead with
      | .ok ckv => ckv
      | .error _ => emptyHead
    [t, h]

/-- The carrier both payload generators build: the active span's context
injected into a fresh text carrier, or an empty carrier when the context
holds no span. -/
def payloadCarrier (ctx : Context) : List (String × String) :=
  match ctx.span with
  | some sp => tracerInject sp.sc
  | none => []

/-- `generatePayload`: inject the active span's context into a fresh
carrier (left empty when there is no span), JSON-marshal the value
(failure aborts), and package carrier, encoded text and the ambient
`"Head"` value into a `Payload` (returned here as its three fields). -/
def generatePayload (codec : Json) (ctx : Context) (value : GoValue) :
    Except String (List (String × String) × String × GoValue) :=
  match codec.marshal value with
  | .error e => .error e
  | .ok msg => .ok (payloadCarrier ctx, msg, ctx.head)

/-- The span `parsePayload` starts: a server-side child span of the
extracted context when extraction succeeds, a fresh root span when the
carrier is empty or corrupt. -/
def parsedSpan (pCarrier : List (String × String)) (opName : String) : Span :=
  match tracerExtract pCarrier with
  | .ok sc => startSpanChild opName sc
  | .error _ => startSpanRoot opName

/-- `parsePayload`: try to extract a span context from the payload's
carrier; start a child span on success, a fresh root span on failure.
Build a fresh base context carrying that span and the payload's head.
Then JSON-unmarshal the payload's value into the output slot; an
unmarshal failure is returned and the built context discarded. -/
def parsePayload (codec : Json) (pCarrier : List (String × String)) (pValue : String)
    (pHead : GoValue) (opName : String) : Except String (Context × GoValue) :=
  let ctx : Context := { span := some (parsedSpan pCarrier opName), head := pHead }
  match codec.unmarshal pValue with
  | .error e => .error e
  | .ok v => .ok (ctx, v)

/-- Modelled from the spec: the repository's mq `Message` type is not
under src; its `Key` and `Value` fields are those `generateMsgsPayload`
reads and writes. -/
structure MqMessage where
  key : String
  value : GoValue

/-- The per-message loop of `generateMsgsPayload`: marshal each message's
value with the shared carrier and head; the first marshal failure aborts
the whole batch. -/
def genMsgs (codec : Json) (carrier : List (String × String)) (head : GoValue) :
    List MqMessage → Except String (List MqMessage)
  | [] => .ok []
  | m :: ms =>
    match codec.marshal m.value with
    | .error e => .error e
    | .ok body =>
      match genMsgs codec carrier head ms with
      | .error e => .error e
      | .ok rest => .ok ({ key := m.key, value := .vpayload carrier body head } :: rest)

/-- `generateMsgsPayload`: one shared carrier (from the active span) and
one shared head snapshot for the whole batch; each message's value is
encoded independently and wrapped in a `Payload` keeping the message's
key; any single encode failure aborts the batch. -/
def generateMsgsPayload (codec : Json) (ctx : Context) (msgs : List MqMessage) :
    Except String (List MqMessage) :=
  genMsgs codec (payloadCarrier ctx) ctx.head msgs

/-- Backslash-escape quotes and backslashes, as a JSON string encoder
does. -/
def escapeChars : List Char → List Char
  | [] => []
  | c :: cs =>
    if c = '"' ∨ c = '\\' then '\\' :: c :: escapeChars cs
    else c :: escapeChars cs

/-- Undo `escapeChars`. -/
def unescapeChars : List Char → List Char
  | [] => []
  | '\\' :: c :: cs => c :: unescapeChars cs
  | c :: cs => c :: unescapeChars cs

/-- Base-10 digit run to a number; any non-digit rejects. -/
def parseDigitsAux : List Char → Nat → Option Nat
  | [], acc => some acc
  | c :: cs, acc =>
    if c.isDigit then parseDigitsAux cs (10 * acc + (c.toNat - 48))
    else none

/-- Parse an optionally signed decimal integer. -/
def parseIntText (s : String) : Option Int :=
  match s.data with
  | [] => none
  | '-' :: cs =>
    if cs = [] then none
    else
      match parseDigitsAux cs 0 with
      | some n => some (-(n : Int))
      | none => none
  | cs =>
    match parseDigitsAux cs 0 with
    | some n => some ((n : Int))
    | none => none

/-- A concrete executable model of the JSON marshaller covering the scalar
values the tests exercise: null, integers and strings; everything else is
rejected the way `encoding/json` rejects unsupported types. -/
def testMarshal : GoValue → Except String String
  | .vnull => .ok "null"
  | .vint n => .ok (toString n)
  | .vstr s => .ok (String.mk ('"' :: escapeChars s.data ++ ['"']))
  | .vunsupported d => .error ("json: unsupported type: " ++ d)
  | .vtrace _ _ => .error "json: unsupported value: trace"
  | .vheader _ => .error "json: unsupported value: header"
  | .vpayload _ _ _ => .error "json: unsupported value: payload"

/-- A concrete executable model of the JSON unmarshaller: inverse of
`testMarshal` on nulls, integers and quoted strings; anything else is
invalid JSON. -/
def testUnmarshal (s : String) : Except String GoValue :=
  if s = "null" then .ok .vnull
  else
    match s.data with
    | '"' :: rest =>
      if rest ≠ [] ∧ rest.getLast? = some '"' then
        .ok (.vstr (String.mk (unescapeChars rest.dropLast)))
      else .error ("invalid json: " ++ s)
    | _ =>
      match parseIntText s with
      | some n => .ok (.vint n)
      | none => .error ("invalid json: " ++ s)

/-- The concrete JSON codec used to instantiate claims at concrete
inputs. -/
def testJson : Json := { marshal := testMarshal, unmarshal := testUnmarshal }

/-- A healthy store environment: an instance resolves and neither GET nor
SET is faulted. -/
def cleanEnv : RedisEnv := { hasInstance := true, getFault := none, setFault := none }

/-- The empty execution state: empty store, all counters zero. -/
def st0 : ExecSt := { entries := [], loaderCalls := 0, storeReads := 0, storeWrites := [] }

/-- A cache whose loader always fails with the text `load failed`,
TTL 5. -/
def cacheLoadErr : GoCache :=
  { nspace := "test", pfx := "", load := fun _ => .error "load failed", expire := 5 }

/-- A cache whose loader succeeds with a value `encoding/json` rejects
(Go: e.g. a channel), TTL 5. -/
def cacheEncErr : GoCache :=
  { nspace := "test", pfx := "", load := fun _ => .ok (.vunsupported "chan int"), expire := 5 }

/-- A store environment whose GET fails with a non-sentinel error
(e.g. a connection failure). -/
def faultEnv : RedisEnv :=
  { hasInstance := true, getFault := some "connection refused", setFault := none }

/-!
## Theorems settling the claims
-/

/-- The redis GET leaves everything but the read counter unchanged. -/
theorem clientGet_frame (env : RedisEnv) (st : ExecSt) (k : String) (now : Nat) :
    (clientGet env st k now).2 = { st with storeReads := st.storeReads + 1 } := by
  simp only [clientGet]
  split
  · rfl
  · split <;> rfl

/-- `getValueFromCache` only ever reads: whatever branch it takes, the
loader counter, the store entries and the write log are unchanged. -/
theorem getValueFromCache_frame (codec : Json) (env : RedisEnv) (c : GoCache)
    (key : GoKey) (now : Nat) (st : ExecSt) :
    ((getValueFromCache codec env c key now st).2).loaderCalls = st.loaderCalls ∧
    ((getValueFromCache codec env c key now st).2).entries = st.entries ∧
    ((getValueFromCache codec env c key now st).2).storeWrites = st.storeWrites := by
  refine ⟨?_, ?_, ?_⟩ <;>
    (simp only [getValueFromCache]
     split
     · rfl
     · split
       · rw [clientGet_frame]
         split
         · rfl
         · split <;> rfl
       · rfl)

/-- C3: when the initial store read fails with any error other than the
not-found sentinel (here: a GET fault `m`), `Get` returns an error —
wrapped with the operation name and key — without invoking the loader
and without writing to the store: such a failure is never treated as a
cache miss. -/
theorem claim3_store_fault_fatal (codec : Json) (env : RedisEnv) (c : GoCache)
    (key : GoKey) (skey m : String) (now : Nat) (st : ExecSt)
    (hi : env.hasInstance = true) (hf : env.getFault = some m) (hm : m ≠ RedisNil)
    (hk : fixKey c key = .ok skey) :
    CacheGet codec env c key now st =
      (.error ("Cache.Get --> cache key: " ++ goKeyFmt key ++ " err: " ++ m),
       { st with storeReads := st.storeReads + 1 }) ∧
    ((CacheGet codec env c key now st).2).loaderCalls = st.loaderCalls ∧
    ((CacheGet codec env c key now st).2).entries = st.entries ∧
    ((CacheGet codec env c key now st).2).storeWrites = st.storeWrites := by
  have h1 : getValueFromCache codec env c key now st =
      (.error m, { st with storeReads := st.storeReads + 1 }) := by
    simp only [getValueFromCache, clientGet, hk, hi, hf, if_true]
  have h2 : CacheGet codec env c key now st =
      (.error ("Cache.Get --> cache key: " ++ goKeyFmt key ++ " err: " ++ m),
       { st with storeReads := st.storeReads + 1 }) := by
    simp only [CacheGet, h1, ne_eq, hm, not_false_eq_true, if_true]
  exact ⟨h2, by rw [h2], by rw [h2], by rw [h2]⟩

/-- C3 witness: a concrete store whose GET fails with
`connection refused` makes `Get` fail without loading or writing. -/
theorem claim3_witness :
    CacheGet testJson faultEnv cacheLoadErr (.int 42) 0 st0 =
      (.error "Cache.Get --> cache key: 42 err: connection refused",
       { st0 with storeReads := st0.storeReads + 1 }) ∧
    ((CacheGet testJson faultEnv cacheLoadErr (.int 42) 0 st0).2).loaderCalls =
      st0.loaderCalls ∧
    ((CacheGet testJson faultEnv cacheLoadErr (.int 42) 0 st0).2).entries = st0.entries ∧
    ((CacheGet testJson faultEnv cacheLoadErr (.int 42) 0 st0).2).storeWrites =
      st0.storeWrites :=
  claim3_store_fault_fatal testJson faultEnv cacheLoadErr (.int 42) "42"
    "connection refused" 0 st0 rfl rfl (by decide) rfl

/-- C4: negative caching keeps the loader invocation count at 1. On a
cold key whose loader fails with error E, the first `Get` stores E's raw
text and bumps the loader counter once; a second `Get` of the same key
before the TTL elapses finds that entry on its first store read and never
reaches the loader, so the counter stays at one more than it started.
The hypothesis `hne` states that the JSON collaborator's decode errors
are never the store's not-found sentinel text. -/
theorem claim4_negative_cache_single_load (codec : Json) (env : RedisEnv) (c : GoCache)
    (key : GoKey) (E skey : String) (st : ExecSt) (t1 t2 : Nat)
    (hi : env.hasInstance = true) (hgf : env.getFault = none) (hsf : env.setFault = none)
    (hl : c.load key = .error E) (hk : fixKey c key = .ok skey)
    (hcold : storeLookup st.entries skey t1 = none)
    (ht : t2 < t1 + c.expire)
    (hne : ∀ e2, codec.unmarshal E = .error e2 → e2 ≠ RedisNil) :
    ((CacheGet codec env c key t1 st).2).loaderCalls = st.loaderCalls + 1 ∧
    ((CacheGet codec env c key t2 (CacheGet codec env c key t1 st).2).2).loaderCalls =
      st.loaderCalls + 1 := by
  have h1 : getValueFromCache codec env c key t1 st =
      (.error RedisNil, { st with storeReads := st.storeReads + 1 }) := by
    simp only [getValueFromCache, clientGet, hk, hi, hgf, if_true, hcold]
  have h2 : loadValueToCache codec env c key t1
        { st with storeReads := st.storeReads + 1 } =
      (.ok (),
       { entries := (skey, E, t1 + c.expire) :: st.entries,
         loaderCalls := st.loaderCalls + 1, storeReads := st.storeReads + 1,
         storeWrites := st.storeWrites ++ [(skey, E, c.expire)] }) := by
    simp only [loadValueToCache, clientSet, hl, hk, hi, hsf, if_true]
  have h3 : CacheGet codec env c key t1 st =
      getValueFromCache codec env c key t1
        { entries := (skey, E, t1 + c.expire) :: st.entries,
          loaderCalls := st.loaderCalls + 1, storeReads := st.storeReads + 1,
          storeWrites := st.storeWrites ++ [(skey, E, c.expire)] } := by
    simp only [CacheGet, h1, ne_eq, not_true_eq_false, if_false, ite_false, h2]
  have hf1 := getValueFromCache_frame codec env c key t1
    { entries := (skey, E, t1 + c.expire) :: st.entries,
      loaderCalls := st.loaderCalls + 1, storeReads := st.storeReads + 1,
      storeWrites := st.storeWrites ++ [(skey, E, c.expire)] }
  have hlc1 : ((CacheGet codec env c key t1 st).2).loaderCalls = st.loaderCalls + 1 := by
    rw [h3]; exact hf1.1
  have hent : ((CacheGet codec env c key t1 st).2).entries =
      (skey, E, t1 + c.expire) :: st.entries := by
    rw [h3]; exact hf1.2.1
  refine ⟨hlc1, ?_⟩
  set stF := (CacheGet codec env c key t1 st).2 with hstF
  have hlc2 : stF.loaderCalls = st.loaderCalls + 1 := hlc1
  have hlook : storeLookup stF.entries skey t2 = some E := by
    have hent2 : stF.entries = (skey, E, t1 + c.expire) :: st.entries := hent
    rw [hent2]
    have hfind : List.find? (fun e => e.1 == skey) ((skey, E, t1 + c.expire) :: st.entries) =
        some (skey, E, t1 + c.expire) := List.find?_cons_of_pos _ (by simp)
    simp only [storeLookup, hfind]
    rw [if_pos ht]
  cases hu : codec.unmarshal E with
  | ok v =>
    have h5 : getValueFromCache codec env c key t2 stF =
        (.ok v, { stF with storeReads := stF.storeReads + 1 }) := by
      simp only [getValueFromCache, clientGet, hk, hi, hgf, if_true, hlook, hu]
    have h6 : CacheGet codec env c key t2 stF =
        (.ok v, { stF with storeReads := stF.storeReads + 1 }) := by
      simp only [CacheGet, h5]
    rw [h6]
    exact hlc2
  | error e =>
    have h5 : getValueFromCache codec env c key t2 stF =
        (.error e, { stF with storeReads := stF.storeReads + 1 }) := by
      simp only [getValueFromCache, clientGet, hk, hi, hgf, if_true, hlook, hu]
    have h6 : CacheGet codec env c key t2 stF =
        (.error ("Cache.Get --> cache key: " ++ goKeyFmt key ++ " err: " ++ e),
         { stF with storeReads := stF.storeReads + 1 }) := by
      simp only [CacheGet, h5, ne_eq, hne e hu, not_false_eq_true, if_true]
    rw [h6]
    exact hlc2

/-- C4 witness: concrete two-call run — loader failing with `boom`,
first Get at instant 0, second at instant 3, TTL 5: the loader counter
is 1 after both calls. -/
theorem claim4_witness :
    ((CacheGet testJson cleanEnv (NewCache "test" "" 5 (fun _ => .error "boom"))
        (.int 42) 0 st0).2).loaderCalls = st0.loaderCalls + 1 ∧
    ((CacheGet testJson cleanEnv (NewCache "test" "" 5 (fun _ => .error "boom")) (.int 42) 3
        (CacheGet testJson cleanEnv (NewCache "test" "" 5 (fun _ => .error "boom"))
          (.int 42) 0 st0).2).2).loaderCalls = st0.loaderCalls + 1 :=
  claim4_negative_cache_single_load testJson cleanEnv
    (NewCache "test" "" 5 (fun _ => .error "boom")) (.int 42) "boom" "42" st0 0 3
    rfl rfl rfl rfl rfl rfl (by decide)
    (fun e2 h => by
      have h3 : (Except.error e2 : Except String GoValue) =
          .error "invalid json: boom" := h.symm.trans rfl
      have h4 := Except.error.inj h3
      rw [h4]
      decide)

/-- C7, counterexample: the claim asserts that a text key is NOT
equivalent to the numeric kinds of the same digits, but `keyToString`
returns text keys verbatim, so the text key `"42"` and `int32(42)`
produce the identical canonical text `"42"`. -/
theorem claim7_counterexample :
    keyToString (.str "42") = .ok "42" ∧ keyToString (.i32 42) = .ok "42" :=
  ⟨rfl, rfl⟩

/-- C7 (amended): `keyToString` renders every supported integer kind as
unpadded base-10 decimal text, so any two supported numeric kinds holding
the same value produce identical canonical text; a text key is returned
verbatim, and consequently a text key of the same digits produces the
SAME canonical text as the numeric kinds (e.g. `"42"` and `uint64(42)`
coincide). -/
theorem claim7_keyToString_canonical :
    (∀ n : Int,
      keyToString (.i8 n) = .ok (toString n) ∧
      keyToString (.i16 n) = .ok (toString n) ∧
      keyToString (.i32 n) = .ok (toString n) ∧
      keyToString (.i64 n) = .ok (toString n) ∧
      keyToString (.int n) = .ok (toString n)) ∧
    (∀ n : Nat,
      keyToString (.u8 n) = .ok (toString n) ∧
      keyToString (.u16 n) = .ok (toString n) ∧
      keyToString (.u32 n) = .ok (toString n) ∧
      keyToString (.u64 n) = .ok (toString n) ∧
      keyToString (.i64 (Int.ofNat n)) = .ok (toString n)) ∧
    (∀ s : String, keyToString (.str s) = .ok s) ∧
    (∀ n : Nat, keyToString (.str (toString n)) = keyToString (.u64 n)) :=
  ⟨fun _ => ⟨rfl, rfl, rfl, rfl, rfl⟩,
   fun _ => ⟨rfl, rfl, rfl, rfl, rfl⟩,
   fun _ => rfl,
   fun _ => rfl⟩

/-- C10: the platform-width `int` kind is accepted by the key
normalization: for every `int` value, `keyToString` succeeds with its
base-10 decimal text and never returns the unsupported-type error. -/
theorem claim10_int_kind_supported :
    ∀ n : Int, keyToString (.int n) = .ok (toString n) :=
  fun _ => rfl

/-- C6, counterexample: the claim says extractContext yields a
two-element result for EVERY ambient context, but for a nil context the
Go code returns early and the result is empty, not two placeholder
components. -/
theorem claim6_counterexample :
    extractContext none true = [] ∧ extractContext none false = [] :=
  ⟨rfl, rfl⟩

/-- C6 (amended): for every NON-NIL ambient context and fullHead flag,
`extractContext` returns an ordered two-element result
[traceComponent, headComponent], substituting the zero/empty placeholder
for a component whose extraction fails, and the call itself never fails;
for a nil context the result is empty instead. -/
theorem claim6_extractContext_total (ctx : Context) (fullHead : Bool) :
    ∃ t h, extractContext (some ctx) fullHead = [t, h] ∧
      (∀ e, extractTraceID ctx = .error e → t = emptyTrace) ∧
      (∀ ckv, extractTraceID ctx = .ok ckv → t = ckv) ∧
      (∀ e, extractHead ctx fullHead = .error e → h = emptyHead) ∧
      (∀ ckv, extractHead ctx fullHead = .ok ckv → h = ckv) := by
  refine ⟨_, _, rfl, ?_, ?_, ?_, ?_⟩
  · intro e he
    simp only [he]
  · intro ckv hc
    simp only [hc]
  · intro e he
    simp only [he]
  · intro ckv hc
    simp only [hc]

/-- C6 witness: at a concrete context with no span and no head value,
both extractions fail and both placeholders are substituted. -/
theorem claim6_witness :
    extractContext (some { span := none, head := .vnull }) true = [emptyTrace, emptyHead] := by
  obtain ⟨t, h, heq, ht, _, hh, _⟩ :=
    claim6_extractContext_total { span := none, head := .vnull } true
  rw [heq, ht "traceID not found" rfl, hh "valid context head not found" rfl]

/-- C1, code evaluated at the failing input: in `loadValueToCache` the
short variable declaration `skey, err := m.fixKey(key)` reassigns `err`,
so the loader's error is lost and the function returns nil after a
successful SET. `Get` therefore re-reads the store (two reads, not one)
and returns the JSON-unmarshal error of the raw error text instead of
the loader's error E. The store of E's raw text with the configured TTL
does happen as claimed. Concretely: key `int(42)`, cold store, loader
failing with `load failed`, TTL 5. -/
theorem claim1_loader_error_swallowed :
    CacheGet testJson cleanEnv cacheLoadErr (.int 42) 0 st0 =
      (.error "invalid json: load failed",
       { entries := [("42", "load failed", 5)], loaderCalls := 1, storeReads := 2,
         storeWrites := [("42", "load failed", 5)] }) :=
  rfl

/-- C2, code evaluated at the failing input: the same `err` reassignment
also swallows the JSON-encoding error. With a loader value the encoder
rejects, the encode-error text is stored as the entry (as claimed), but
`Get` re-attempts a store read and decode and returns that decode error,
not the encoding error. Concretely: key `int(42)`, cold store, loader
value unencodable (Go: a channel), TTL 5. -/
theorem claim2_encode_error_swallowed :
    CacheGet testJson cleanEnv cacheEncErr (.int 42) 0 st0 =
      (.error "invalid json: json: unsupported type: chan int",
       { entries := [("42", "json: unsupported type: chan int", 5)], loaderCalls := 1,
         storeReads := 2,
         storeWrites := [("42", "json: unsupported type: chan int", 5)] }) :=
  rfl

/-- C5: for every value V whose JSON encoding succeeds (and whose
encoding the JSON collaborator decodes back to V), `generatePayload`
followed by `parsePayload` on the resulting envelope decodes the output
slot to a value equal to V, and the head attached to the returned
context equals the head present in the original ambient context — in
particular `extractHead` agrees on the two contexts for either flag. -/
theorem claim5_envelope_roundtrip (codec : Json) (ctx : Context) (V : GoValue)
    (s name : String) (henc : codec.marshal V = .ok s)
    (hdec : codec.unmarshal s = .ok V) :
    generatePayload codec ctx V = .ok (payloadCarrier ctx, s, ctx.head) ∧
    parsePayload codec (payloadCarrier ctx) s ctx.head name =
      .ok ({ span := some (parsedSpan (payloadCarrier ctx) name), head := ctx.head }, V) ∧
    ({ span := some (parsedSpan (payloadCarrier ctx) name),
       head := ctx.head } : Context).head = ctx.head ∧
    ∀ f : Bool,
      extractHead { span := some (parsedSpan (payloadCarrier ctx) name),
                    head := ctx.head } f = extractHead ctx f := by
  refine ⟨?_, ?_, rfl, fun f => rfl⟩
  · simp only [generatePayload, henc]
  · simp only [parsePayload, hdec]

/-- C5 witness: concrete round trip of the string value `hello` through
the concrete JSON codec, with a head value present in the ambient
context. -/
theorem claim5_witness :
    generatePayload testJson { span := none, head := .vheader [("uid", .vint 7)] }
        (.vstr "hello") =
      .ok (payloadCarrier { span := none, head := .vheader [("uid", .vint 7)] },
           "\"hello\"", .vheader [("uid", .vint 7)]) ∧
    parsePayload testJson
        (payloadCarrier { span := none, head := .vheader [("uid", .vint 7)] })
        "\"hello\"" (.vheader [("uid", .vint 7)]) "op" =
      .ok ({ span := some (parsedSpan
                (payloadCarrier { span := none, head := .vheader [("uid", .vint 7)] }) "op"),
             head := .vheader [("uid", .vint 7)] }, .vstr "hello") ∧
    ({ span := some (parsedSpan
          (payloadCarrier { span := none, head := .vheader [("uid", .vint 7)] }) "op"),
       head := GoValue.vheader [("uid", .vint 7)] } : Context).head =
      .vheader [("uid", .vint 7)] ∧
    ∀ f : Bool,
      extractHead
          { span := some (parsedSpan
              (payloadCarrier { span := none, head := .vheader [("uid", .vint 7)] }) "op"),
            head := .vheader [("uid", .vint 7)] } f =
        extractHead { span := none, head := .vheader [("uid", .vint 7)] } f :=
  claim5_envelope_roundtrip testJson
    { span := none, head := .vheader [("uid", .vint 7)] } (.vstr "hello")
    "\"hello\"" "op" (by rfl) (by rfl)

/-- C8: `parsePayload` never fails because of carrier extraction — when
the tracer cannot extract a span context it starts a fresh root span and
decoding proceeds; but a JSON-decode failure of the envelope's value is
fatal: the error is returned and the already-built context discarded. -/
theorem claim8_parse_fallback_and_decode (codec : Json)
    (carrier : List (String × String)) (pv : String) (ph : GoValue) (name : String) :
    (∀ e v, tracerExtract carrier = .error e → codec.unmarshal pv = .ok v →
      parsePayload codec carrier pv ph name =
        .ok ({ span := some (startSpanRoot name), head := ph }, v)) ∧
    (∀ e, codec.unmarshal pv = .error e →
      parsePayload codec carrier pv ph name = .error e) := by
  constructor
  · intro e v hx hu
    simp only [parsePayload, parsedSpan, hx, hu]
  · intro e hu
    simp only [parsePayload, hu]

/-- C8 witness: on an empty carrier, extraction fails yet parsing a valid
body succeeds with a root-span context; and an invalid body makes
parsePayload return the decode error with no context. -/
theorem claim8_witness :
    parsePayload testJson [] "7" .vnull "op" =
      .ok ({ span := some (startSpanRoot "op"), head := .vnull }, .vint 7) ∧
    parsePayload testJson [] "oops" .vnull "op" = .error "invalid json: oops" :=
  ⟨(claim8_parse_fallback_and_decode testJson [] "7" .vnull "op").1
      "opentracing: SpanContext not found in Extract carrier" (.vint 7) (by rfl) (by rfl),
   (claim8_parse_fallback_and_decode testJson [] "oops" .vnull "op").2
      "invalid json: oops" (by rfl)⟩

/-- The per-message loop of `generateMsgsPayload` preserves each
message's key, in order. -/
theorem genMsgs_map_key (codec : Json) (carrier : List (String × String)) (head : GoValue) :
    ∀ ms outs : List MqMessage, genMsgs codec carrier head ms = .ok outs →
      outs.map (fun m => m.key) = ms.map (fun m => m.key) := by
  intro ms
  induction ms with
  | nil =>
    intro outs h
    simp only [genMsgs] at h
    cases h
    rfl
  | cons m ms ih =>
    intro outs h
    simp only [genMsgs] at h
    cases hm : codec.marshal m.value with
    | error e => rw [hm] at h; cases h
    | ok body =>
      rw [hm] at h
      cases hr : genMsgs codec carrier head ms with
      | error e => rw [hr] at h; cases h
      | ok rest =>
        rw [hr] at h
        cases h
        simp only [List.map_cons]
        rw [ih rest hr]

/-- C9: whenever `generateMsgsPayload` succeeds, each output message's
Key equals the corresponding input message's Key unchanged, and the
output batch has the same length and order as the input. -/
theorem claim9_msgs_keys_preserved (codec : Json) (ctx : Context)
    (msgs outs : List MqMessage)
    (h : generateMsgsPayload codec ctx msgs = .ok outs) :
    outs.map (fun m => m.key) = msgs.map (fun m => m.key) ∧
    outs.length = msgs.length := by
  simp only [generateMsgsPayload] at h
  have hmap := genMsgs_map_key codec _ ctx.head msgs outs h
  refine ⟨hmap, ?_⟩
  have := congrArg List.length hmap
  simpa using this

/-- C9 witness: a concrete two-message batch keeps both keys in order. -/
theorem claim9_witness :
    ([{ key := "k1", value := GoValue.vpayload [] "1" .vnull },
      { key := "k2", value := GoValue.vpayload [] "\"x\"" .vnull }] :
        List MqMessage).map (fun m => m.key) =
      ([{ key := "k1", value := GoValue.vint 1 },
        { key := "k2", value := GoValue.vstr "x" }] : List MqMessage).map (fun m => m.key) ∧
    ([{ key := "k1", value := GoValue.vpayload [] "1" .vnull },
      { key := "k2", value := GoValue.vpayload [] "\"x\"" .vnull }] :
        List MqMessage).length =
      ([{ key := "k1", value := GoValue.vint 1 },
        { key := "k2", value := GoValue.vstr "x" }] : List MqMessage).length :=
  claim9_msgs_keys_preserved testJson { span := none, head := .vnull }
    [{ key := "k1", value := GoValue.vint 1 }, { key := "k2", value := GoValue.vstr "x" }]
    [{ key := "k1", value := GoValue.vpayload [] "1" .vnull },
     { key := "k2", value := GoValue.vpayload [] "\"x\"" .vnull }]
    (by rfl)

end Sutil
